import Mathlib

/-
Shallow embedding of the FastApiTestForAxa account microservice
(src/main.py): the validation layer (pydantic field validators of the
User and Login models), the account store (the sqlite `accounts` table
with AUTOINCREMENT ids and a UNIQUE constraint on username), and the
two endpoints `register_account` and `login`.

Modelling notes, each traced to the source:
- Python's `re.match(r"^[P]+$", s)` is truthy iff s consists of one or
  more characters matching P, optionally followed by a single trailing
  newline: in Python `$` also matches just before a newline that ends
  the string.  `reFullMatchPlus` embeds exactly that.
- `re.search(r"\d", s)` matches any Unicode decimal digit, the general
  category Nd; `ndRanges` lists the 62 code point ranges of that
  category (Unicode 14.0, the table of CPython 3.11) and
  `isUnicodeDigit` tests membership.
- sqlite AUTOINCREMENT is embedded as a `nextId` counter that is handed
  out and incremented on every successful insert.
- `str(sqlite3.IntegrityError)` for the UNIQUE constraint on username is
  the fixed text "UNIQUE constraint failed: accounts.username".
- The pydantic layer validates the request bodies before the handler
  runs; `register_account` therefore checks `AccountCreate.valid` first
  and returns InvalidInput (HTTP 422) without touching the store.
- `login` returns, besides the result and the new store, a Bool that
  records whether the UPDATE statement was executed (the branch on
  `current_status != AccountStatus.ACTIVE.value` in the source).
-/

namespace Axa

/-- Account statuses, from the AccountStatus enum of the source. -/
inductive AccountStatus : Type where
  | ACTIVE
  | DISABLED
  | DELETED
  | IN_PROGRESS
deriving DecidableEq, Repr

/-- String value of each status, as stored in the sqlite table. -/
def AccountStatus.value : AccountStatus → String
  | .ACTIVE => "Active"
  | .DISABLED => "Disabled"
  | .DELETED => "Deleted"
  | .IN_PROGRESS => "In progress"

/-- ASCII letter, the character class of the regex [A-Za-z]. -/
def isAsciiLetter (c : Char) : Bool :=
  ('A' ≤ c && c ≤ 'Z') || ('a' ≤ c && c ≤ 'z')

/-- ASCII letter or digit, the character class of the regex [A-Za-z0-9]. -/
def isAsciiAlnum (c : Char) : Bool :=
  isAsciiLetter c || ('0' ≤ c && c ≤ '9')

/-- ASCII capital letter, the character class of the regex [A-Z]. -/
def isAsciiUpper (c : Char) : Bool :=
  'A' ≤ c && c ≤ 'Z'

/-- Code point ranges of the Unicode general category Nd, the decimal
digits, which is exactly what the regex class \d matches on Python
strings (Unicode 14.0, the table shipped with CPython 3.11): each pair
is an inclusive range of consecutive digit code points. -/
def ndRanges : List (Nat × Nat) :=
  [(48, 57), (1632, 1641), (1776, 1785), (1984, 1993), (2406, 2415),
   (2534, 2543), (2662, 2671), (2790, 2799), (2918, 2927), (3046, 3055),
   (3174, 3183), (3302, 3311), (3430, 3439), (3558, 3567), (3664, 3673),
   (3792, 3801), (3872, 3881), (4160, 4169), (4240, 4249), (6112, 6121),
   (6160, 6169), (6470, 6479), (6608, 6617), (6784, 6793), (6800, 6809),
   (6992, 7001), (7088, 7097), (7232, 7241), (7248, 7257), (42528, 42537),
   (43216, 43225), (43264, 43273), (43472, 43481), (43504, 43513),
   (43600, 43609), (44016, 44025), (65296, 65305), (66720, 66729),
   (68912, 68921), (69734, 69743), (69872, 69881), (69942, 69951),
   (70096, 70105), (70384, 70393), (70736, 70745), (70864, 70873),
   (71248, 71257), (71360, 71369), (71472, 71481), (71904, 71913),
   (72016, 72025), (72784, 72793), (73040, 73049), (73120, 73129),
   (92768, 92777), (92864, 92873), (93008, 93017), (120782, 120831),
   (123200, 123209), (123632, 123641), (125264, 125273), (130032, 130041)]

/-- Unicode decimal digit, embedding the regex class \d: the code point
lies in one of the Nd ranges. -/
def isUnicodeDigit (c : Char) : Bool :=
  ndRanges.any (fun r => r.1 ≤ c.toNat && c.toNat ≤ r.2)

/-- Truthiness of Python `re.match` applied to a pattern of the shape
`^[P]+$`: the string must be one or more P-characters, optionally
followed by one trailing newline, because in Python `$` also matches
just before a newline that ends the string. -/
def reFullMatchPlus (p : Char → Bool) (s : String) : Bool :=
  let cs := s.data
  let core := if cs.getLast? = some '\n' then cs.dropLast else cs
  !core.isEmpty && core.all p

/-- Validator of User.name: `re.match(r"^[A-Za-z]+$", value)`. -/
def validate_name_letters_only (s : String) : Bool :=
  reFullMatchPlus isAsciiLetter s

/-- Validator of User.surname: same regex as the name validator. -/
def validate_surname_letters_only (s : String) : Bool :=
  reFullMatchPlus isAsciiLetter s

/-- The conint(ge=18, le=120) constraint on User.age. -/
def validate_age (n : Int) : Bool :=
  18 ≤ n && n ≤ 120

/-- Validator of Login.username: `re.match(r"^[A-Za-z0-9]+$", value)`. -/
def validate_username_alphanumeric (s : String) : Bool :=
  reFullMatchPlus isAsciiAlnum s

/-- Validator of Login.password: length at least 10, at least one
capital letter (re.search of [A-Z]), at least one Unicode decimal
digit (re.search of the class \d). -/
def validate_password_strength (s : String) : Bool :=
  decide (10 ≤ s.length) && s.data.any isAsciiUpper && s.data.any isUnicodeDigit

/-- The User request model: name, surname, age. -/
structure User : Type where
  name : String
  surname : String
  age : Int
deriving DecidableEq, Repr

/-- The Login request model: username, password. -/
structure Login : Type where
  username : String
  password : String
deriving DecidableEq, Repr

/-- The AccountCreate request model wrapping User and Login. -/
structure AccountCreate : Type where
  user : User
  login : Login
deriving DecidableEq, Repr

/-- Pydantic acceptance of a User payload: all field validators pass. -/
def User.valid (u : User) : Bool :=
  validate_name_letters_only u.name &&
  validate_surname_letters_only u.surname &&
  validate_age u.age

/-- Pydantic acceptance of a Login payload: all field validators pass. -/
def Login.valid (l : Login) : Bool :=
  validate_username_alphanumeric l.username &&
  validate_password_strength l.password

/-- Pydantic acceptance of an AccountCreate payload. -/
def AccountCreate.valid (a : AccountCreate) : Bool :=
  a.user.valid && a.login.valid

/-- One row of the sqlite accounts table. -/
structure Account : Type where
  id : Nat
  name : String
  surname : String
  age : Int
  username : String
  password : String
  status : AccountStatus
deriving DecidableEq, Repr

/-- The account store: the rows in insertion order and the AUTOINCREMENT
counter for the next id. -/
structure Store : Type where
  accounts : List Account
  nextId : Nat
deriving DecidableEq, Repr

/-- The store right after the CREATE TABLE of the lifespan hook: no rows,
AUTOINCREMENT starts at 1. -/
def initStore : Store := ⟨[], 1⟩

/-- Whether a username is already present, which is what the UNIQUE
constraint on the username column rejects at insert time. -/
def usernameExists (st : Store) (u : String) : Bool :=
  st.accounts.any (fun a => a.username = u)

/-- Result of the register_account endpoint.  InvalidInput is the 422
produced by pydantic before the handler body runs; Conflict carries
the detail string of the 400 response; Registered carries the body
message of the 200 response. -/
inductive RegisterResult : Type where
  | InvalidInput
  | Conflict (detail : String)
  | Registered (message : String)
deriving DecidableEq, Repr

/-- HTTP status code of each register outcome. -/
def RegisterResult.httpStatus : RegisterResult → Nat
  | .InvalidInput => 422
  | .Conflict _ => 400
  | .Registered _ => 200

/-- Detail string of the 400 response on a duplicate username:
f-string "Could not create account: " followed by str(e) for the
sqlite IntegrityError of the UNIQUE constraint on username. -/
def duplicateDetail : String :=
  "Could not create account: UNIQUE constraint failed: accounts.username"

/-- The row the INSERT statement of register_account writes: the next
AUTOINCREMENT id, the submitted fields, and status IN_PROGRESS. -/
def newRow (st : Store) (a : AccountCreate) : Account :=
  ⟨st.nextId, a.user.name, a.user.surname, a.user.age,
   a.login.username, a.login.password, AccountStatus.IN_PROGRESS⟩

/-- The POST /register_account endpoint: pydantic validation of the
AccountCreate body (422 on failure), then the INSERT, which raises the
IntegrityError (400) when the username already exists, and otherwise
appends the new row and returns the fixed confirmation message. -/
def register_account (st : Store) (a : AccountCreate) : RegisterResult × Store :=
  if a.valid then
    if usernameExists st a.login.username then
      (.Conflict duplicateDetail, st)
    else
      (.Registered "Thank you for registering!",
       ⟨st.accounts ++ [newRow st a], st.nextId + 1⟩)
  else
    (.InvalidInput, st)

/-- Result of the login handler: the 404 HTTPException with its detail
string, or the 200 greeting message. -/
inductive LoginResult : Type where
  | NotFound (detail : String)
  | Authenticated (message : String)
deriving DecidableEq, Repr

/-- HTTP status code of each login outcome. -/
def LoginResult.httpStatus : LoginResult → Nat
  | .NotFound _ => 404
  | .Authenticated _ => 200

/-- The SELECT of the login handler: first row whose username and
password both equal the submitted credentials (fetchone in insertion
order; username is unique so at most one row matches). -/
def find_by_credentials (st : Store) (u p : String) : Option Account :=
  st.accounts.find? (fun a => a.username = u && a.password = p)

/-- The UPDATE of the login handler: overwrite the status of every row
whose id equals the given id (ids are unique, so one row). -/
def setStatusById (l : List Account) (i : Nat) (ns : AccountStatus) : List Account :=
  l.map (fun a => if a.id = i then { a with status := ns } else a)

/-- The POST /login handler body: look the row up by credentials,
404 with the username embedded when absent; otherwise set the status to
ACTIVE when it is not already ACTIVE, and greet with the stored name.
The Bool records whether the UPDATE statement ran. -/
def login (st : Store) (c : Login) : LoginResult × Store × Bool :=
  match find_by_credentials st c.username c.password with
  | none =>
      (.NotFound ("User " ++ c.username ++ " Not Found"), st, false)
  | some row =>
      if row.status ≠ AccountStatus.ACTIVE then
        (.Authenticated ("Hello, " ++ row.name ++ "!"),
         { st with accounts := setStatusById st.accounts row.id AccountStatus.ACTIVE },
         true)
      else
        (.Authenticated ("Hello, " ++ row.name ++ "!"), st, false)

/-- Stores reachable from the fresh table through the two endpoints. -/
inductive Reachable : Store → Prop where
  | init : Reachable initStore
  | register (st : Store) (a : AccountCreate) :
      Reachable st → Reachable (register_account st a).2
  | login (st : Store) (c : Login) :
      Reachable st → Reachable (login st c).2.1

/-- The store invariant maintained by the two endpoints: ids are below
the AUTOINCREMENT counter, strictly increasing in insertion order,
usernames are pairwise distinct, and every status is IN_PROGRESS or
ACTIVE. -/
def StoreInv (st : Store) : Prop :=
  (∀ a ∈ st.accounts, a.id < st.nextId) ∧
  st.accounts.Pairwise (fun a b => a.id < b.id) ∧
  st.accounts.Pairwise (fun a b => a.username ≠ b.username) ∧
  ∀ a ∈ st.accounts, a.status = AccountStatus.IN_PROGRESS ∨ a.status = AccountStatus.ACTIVE

/-- Example User payload from the source tests. -/
def aliceUser : User := ⟨"Alice", "Smith", 25⟩

/-- Example Login payload from the source tests. -/
def aliceLogin : Login := ⟨"Alice123", "BlaBla1234"⟩

/-- Example AccountCreate payload from the source tests. -/
def aliceCreate : AccountCreate := ⟨aliceUser, aliceLogin⟩

/-- Store after registering the Alice payload on the fresh store. -/
def stAlice : Store := (register_account initStore aliceCreate).2

/-- Store after Alice additionally logged in once. -/
def stAliceActive : Store := (login stAlice aliceLogin).2.1

/-- Payload reusing the username Alice123 with an invalid age field. -/
def bobSameUsername : AccountCreate := ⟨⟨"Bob", "Jones", 17⟩, ⟨"Alice123", "Password12"⟩⟩

/-- Payload reusing the username Alice123 with valid other fields. -/
def carolSameUsername : AccountCreate := ⟨⟨"Carol", "Jones", 30⟩, ⟨"Alice123", "Password12"⟩⟩

/-- Payload whose name ends in a newline, which Python re.match accepts. -/
def newlineCreate : AccountCreate := ⟨⟨"Alice\n", "Smith", 25⟩, ⟨"Newlined1A", "BlaBla1234"⟩⟩

/-- Helper: a false List.any gives the pointwise falsehood of the predicate. -/
lemma any_eq_false' {α : Type} {p : α → Bool} {l : List α} (h : l.any p = false) :
    ∀ x ∈ l, p x = false := by
  intro x hx
  by_contra hc
  have : l.any p = true := List.any_eq_true.mpr ⟨x, hx, by revert hc; cases p x <;> simp⟩
  simp [this] at h

/-- Helper: overwriting statuses to ACTIVE by id preserves the store invariant. -/
lemma storeInv_setStatus (st : Store) (i : Nat) (h : StoreInv st) :
    StoreInv ⟨setStatusById st.accounts i AccountStatus.ACTIVE, st.nextId⟩ := by
  obtain ⟨h1, h2, h3, h4⟩ := h
  refine ⟨?_, ?_, ?_, ?_⟩
  · intro b hb
    simp only [setStatusById] at hb
    rcases List.mem_map.mp hb with ⟨x, hx, hxe⟩
    subst hxe
    show _ < st.nextId
    by_cases hid : x.id = i <;> simp [hid]
    · exact hid ▸ h1 x hx
    · exact h1 x hx
  · show List.Pairwise _ (setStatusById st.accounts i AccountStatus.ACTIVE)
    simp only [setStatusById]
    rw [List.pairwise_map]
    refine h2.imp ?_
    intro x y hxy
    by_cases hx : x.id = i <;> by_cases hy : y.id = i <;> simp [hx, hy] <;> omega
  · show List.Pairwise _ (setStatusById st.accounts i AccountStatus.ACTIVE)
    simp only [setStatusById]
    rw [List.pairwise_map]
    refine h3.imp ?_
    intro x y hxy
    by_cases hx : x.id = i <;> by_cases hy : y.id = i <;> simp [hx, hy] <;> exact hxy
  · intro b hb
    simp only [setStatusById] at hb
    rcases List.mem_map.mp hb with ⟨x, hx, hxe⟩
    subst hxe
    by_cases hid : x.id = i
    · simp [hid]
    · simp [hid]
      exact h4 x hx

/-- Helper: the register endpoint preserves the store invariant. -/
lemma storeInv_register (st : Store) (a : AccountCreate) (h : StoreInv st) :
    StoreInv (register_account st a).2 := by
  obtain ⟨h1, h2, h3, h4⟩ := h
  unfold register_account
  by_cases hv : a.valid = true
  · by_cases hex : usernameExists st a.login.username = true
    · simp [hv, hex]
      exact ⟨h1, h2, h3, h4⟩
    · simp only [hv, hex, if_true, if_false, Bool.false_eq_true, if_neg, ite_false, ite_true]
      have hex' : usernameExists st a.login.username = false := by
        simpa using hex
      have hany : st.accounts.any (fun b => decide (b.username = a.login.username)) = false :=
        hex'
      have hfresh : ∀ x ∈ st.accounts, x.username ≠ a.login.username := by
        intro x hx
        have hh := any_eq_false' hany x hx
        simpa using hh
      refine ⟨?_, ?_, ?_, ?_⟩
      · intro x hx
        rcases List.mem_append.mp hx with hmem | hmem
        · exact Nat.lt_succ_of_lt (h1 x hmem)
        · simp at hmem
          subst hmem
          simp [newRow]
      · refine List.pairwise_append.mpr ⟨h2, by simp, ?_⟩
        intro x hx b hb
        simp at hb
        subst hb
        simpa [newRow] using h1 x hx
      · refine List.pairwise_append.mpr ⟨h3, by simp, ?_⟩
        intro x hx b hb
        simp at hb
        subst hb
        simpa [newRow] using hfresh x hx
      · intro x hx
        rcases List.mem_append.mp hx with hmem | hmem
        · exact h4 x hmem
        · simp at hmem
          subst hmem
          simp [newRow]
  · simp [hv]
    exact ⟨h1, h2, h3, h4⟩

/-- Helper: the login handler preserves the store invariant. -/
lemma storeInv_login (st : Store) (c : Login) (h : StoreInv st) :
    StoreInv (login st c).2.1 := by
  unfold login
  cases hfind : find_by_credentials st c.username c.password with
  | none => simpa using h
  | some row =>
      by_cases hst : row.status = AccountStatus.ACTIVE
      · simpa [hst] using h
      · have := storeInv_setStatus st row.id h
        simpa [hst] using this

/-- Helper: every reachable store satisfies the store invariant. -/
lemma reachable_inv (st : Store) (h : Reachable st) : StoreInv st := by
  induction h with
  | init => refine ⟨?_, ?_, ?_, ?_⟩ <;> simp [initStore]
  | register st a _ ih => exact storeInv_register st a ih
  | login st c _ ih => exact storeInv_login st c ih

/-- Claim C5: for every username that was never registered, login with that
username and any password returns NotFound, mapped to HTTP 404, with the
submitted username embedded in the message, and leaves the store unchanged. -/
theorem login_unknown_username_not_found
    (st : Store) (c : Login)
    (h : ∀ x ∈ st.accounts, x.username ≠ c.username) :
    login st c = (.NotFound ("User " ++ c.username ++ " Not Found"), st, false) ∧
    (LoginResult.NotFound ("User " ++ c.username ++ " Not Found")).httpStatus = 404 := by
  have hfind : find_by_credentials st c.username c.password = none := by
    unfold find_by_credentials
    rw [List.find?_eq_none]
    intro x hx
    simp
    intro hu
    exact absurd hu (h x hx)
  exact ⟨by simp [login, hfind], rfl⟩

/-- Witness for C5 at the concrete unknown user of the source tests. -/
theorem login_unknown_username_not_found_witness :
    login initStore ⟨"UnknownUser", "Whatever123"⟩ =
      (.NotFound ("User " ++ "UnknownUser" ++ " Not Found"), initStore, false) ∧
    (LoginResult.NotFound ("User " ++ "UnknownUser" ++ " Not Found")).httpStatus = 404 :=
  login_unknown_username_not_found initStore ⟨"UnknownUser", "Whatever123"⟩ (by decide)

/-- Claim C6: for a registered username with a password different from the
stored one, login returns the same NotFound result, HTTP 404, as a login
with a nonexistent username; no distinct wrong-password error exists. -/
theorem login_wrong_password_not_found
    (st : Store) (c : Login)
    (_hreg : ∃ x ∈ st.accounts, x.username = c.username)
    (h : ∀ x ∈ st.accounts, x.username = c.username → x.password ≠ c.password) :
    login st c = (.NotFound ("User " ++ c.username ++ " Not Found"), st, false) ∧
    (login st c).1 = (login initStore c).1 ∧
    ((login st c).1).httpStatus = 404 := by
  have hfind : find_by_credentials st c.username c.password = none := by
    unfold find_by_credentials
    rw [List.find?_eq_none]
    intro x hx
    simp
    intro hu
    exact h x hx hu
  have hmain : login st c = (.NotFound ("User " ++ c.username ++ " Not Found"), st, false) := by
    simp [login, hfind]
  refine ⟨hmain, ?_, by rw [hmain]; rfl⟩
  rw [hmain]
  simp [login, find_by_credentials, initStore]

/-- Witness for C6: wrong password for the registered Alice123 account. -/
theorem login_wrong_password_not_found_witness :
    login stAlice ⟨"Alice123", "WrongPass99"⟩ =
      (.NotFound ("User " ++ "Alice123" ++ " Not Found"), stAlice, false) ∧
    (login stAlice ⟨"Alice123", "WrongPass99"⟩).1 =
      (login initStore ⟨"Alice123", "WrongPass99"⟩).1 ∧
    ((login stAlice ⟨"Alice123", "WrongPass99"⟩).1).httpStatus = 404 :=
  login_wrong_password_not_found stAlice ⟨"Alice123", "WrongPass99"⟩
    (by decide) (by decide)

/-- Claim C7: password validation accepts a string s if and only if s has
length at least 10, contains a capital letter in the range A to Z, and
contains at least one decimal digit, where digit means any Unicode
decimal digit, the category Nd matched by the regex class \d;
otherwise the validator fails. -/
theorem validate_password_strength_spec (s : String) :
    validate_password_strength s = true ↔
      (10 ≤ s.length ∧ (∃ c ∈ s.data, 'A' ≤ c ∧ c ≤ 'Z') ∧
       ∃ c ∈ s.data, isUnicodeDigit c = true) := by
  unfold validate_password_strength
  simp [isAsciiUpper, List.any_eq_true]
  exact and_assoc

/-- Witness for C7 at the concrete password of the source tests. -/
theorem validate_password_strength_spec_witness :
    validate_password_strength "BlaBla1234" = true :=
  (validate_password_strength_spec "BlaBla1234").mpr (by decide)

/-- Claim C1: for every payload satisfying all validation rules, with a
username not yet taken, Register succeeds with HTTP 200 and the fixed
confirmation message, and a subsequent Login with the same username and
password yields Authenticated, HTTP 200, greeting the stored account name. -/
theorem register_then_login_greets_stored_name
    (st : Store) (a : AccountCreate)
    (hvalid : a.valid = true)
    (hfresh : usernameExists st a.login.username = false) :
    (register_account st a).1 = RegisterResult.Registered "Thank you for registering!" ∧
    ((register_account st a).1).httpStatus = 200 ∧
    (login (register_account st a).2 a.login).1 =
      LoginResult.Authenticated ("Hello, " ++ a.user.name ++ "!") ∧
    ((login (register_account st a).2 a.login).1).httpStatus = 200 := by
  have hreg : register_account st a =
      (.Registered "Thank you for registering!",
       ⟨st.accounts ++ [newRow st a], st.nextId + 1⟩) := by
    simp [register_account, hvalid, hfresh]
  have hnone : st.accounts.find?
      (fun x => decide (x.username = a.login.username) &&
                decide (x.password = a.login.password)) = none := by
    rw [List.find?_eq_none]
    intro x hx
    have hfreshAny : st.accounts.any (fun b => decide (b.username = a.login.username)) = false :=
      hfresh
    have hne := any_eq_false' hfreshAny x hx
    simp at hne
    simp [hne]
  have hfind : find_by_credentials ⟨st.accounts ++ [newRow st a], st.nextId + 1⟩
      a.login.username a.login.password = some (newRow st a) := by
    unfold find_by_credentials
    rw [List.find?_append, hnone]
    simp [newRow]
  have hlog1 : (login (register_account st a).2 a.login).1 =
      LoginResult.Authenticated ("Hello, " ++ a.user.name ++ "!") := by
    rw [hreg]
    show (login ⟨st.accounts ++ [newRow st a], st.nextId + 1⟩ a.login).1 = _
    unfold login
    rw [hfind]
    simp [newRow]
  exact ⟨by rw [hreg], by rw [hreg]; rfl, hlog1, by rw [hlog1]; rfl⟩

/-- Witness for C1 at the Alice payload of the source tests. -/
theorem register_then_login_greets_stored_name_witness :
    (register_account initStore aliceCreate).1 =
      RegisterResult.Registered "Thank you for registering!" ∧
    ((register_account initStore aliceCreate).1).httpStatus = 200 ∧
    (login (register_account initStore aliceCreate).2 aliceCreate.login).1 =
      LoginResult.Authenticated ("Hello, " ++ aliceCreate.user.name ++ "!") ∧
    ((login (register_account initStore aliceCreate).2 aliceCreate.login).1).httpStatus = 200 :=
  register_then_login_greets_stored_name initStore aliceCreate (by decide) (by decide)

/-- Claim C2: every account is created with status IN_PROGRESS; a successful
login leaves the matched account ACTIVE, and when the login wrote a status
it overwrote an IN_PROGRESS one, over reachable stores; a second login with
the same credentials returns the identical message, performs no status
write, and leaves the store untouched. -/
theorem register_in_progress_login_activates_idempotent :
    (∀ st a, ((register_account st a).2).accounts = st.accounts ∨
       ∃ acc, ((register_account st a).2).accounts = st.accounts ++ [acc] ∧
         acc.status = AccountStatus.IN_PROGRESS) ∧
    (∀ st c m st₁ w, Reachable st → login st c = (.Authenticated m, st₁, w) →
       (w = true → ∃ row, find_by_credentials st c.username c.password = some row ∧
          row.status = AccountStatus.IN_PROGRESS) ∧
       (∃ row₁, find_by_credentials st₁ c.username c.password = some row₁ ∧
          row₁.status = AccountStatus.ACTIVE) ∧
       login st₁ c = (.Authenticated m, st₁, false)) := by
  constructor
  · intro st a
    unfold register_account
    by_cases hv : a.valid = true
    · by_cases hex : usernameExists st a.login.username = true
      · rw [if_pos hv, if_pos hex]
        exact Or.inl rfl
      · rw [if_pos hv, if_neg hex]
        exact Or.inr ⟨newRow st a, rfl, rfl⟩
    · rw [if_neg hv]
      exact Or.inl rfl
  · intro st c m st₁ w hreach hlogin
    cases hfind : find_by_credentials st c.username c.password with
    | none => simp [login, hfind] at hlogin
    | some row =>
      by_cases hst : row.status = AccountStatus.ACTIVE
      · have hlogin' : login st c =
            (.Authenticated ("Hello, " ++ row.name ++ "!"), st, false) := by
          unfold login
          rw [hfind]
          simp [hst]
        rw [hlogin'] at hlogin
        obtain ⟨hm, hst₁, hw⟩ : ("Hello, " ++ row.name ++ "!") = m ∧ st = st₁ ∧ false = w := by
          simpa using hlogin
        subst hm
        subst hst₁
        subst hw
        refine ⟨?_, ⟨row, hfind, hst⟩, hlogin'⟩
        intro habs
        simp at habs
      · have hlogin' : login st c =
            (.Authenticated ("Hello, " ++ row.name ++ "!"),
             ⟨setStatusById st.accounts row.id AccountStatus.ACTIVE, st.nextId⟩, true) := by
          unfold login
          rw [hfind]
          simp [hst]
        rw [hlogin'] at hlogin
        obtain ⟨hm, hst₁, hw⟩ : ("Hello, " ++ row.name ++ "!") = m ∧
            (⟨setStatusById st.accounts row.id AccountStatus.ACTIVE, st.nextId⟩ : Store) = st₁ ∧
            true = w := by
          simpa using hlogin
        subst hm
        subst hst₁
        subst hw
        have hfind' : List.find? (fun x : Account =>
            decide (x.username = c.username) && decide (x.password = c.password))
            st.accounts = some row := hfind
        have hmem : row ∈ st.accounts := List.mem_of_find?_eq_some hfind'
        have hip : row.status = AccountStatus.IN_PROGRESS := by
          rcases (reachable_inv st hreach).2.2.2 row hmem with h | h
          · exact h
          · exact absurd h hst
        have hcomp : ((fun x : Account => decide (x.username = c.username) &&
              decide (x.password = c.password)) ∘
            (fun x : Account => if x.id = row.id
              then { x with status := AccountStatus.ACTIVE } else x)) =
            (fun x : Account => decide (x.username = c.username) &&
              decide (x.password = c.password)) := by
          funext x
          by_cases hid : x.id = row.id <;> simp [hid]
        have hfind₁ : find_by_credentials
            ⟨setStatusById st.accounts row.id AccountStatus.ACTIVE, st.nextId⟩
            c.username c.password = some { row with status := AccountStatus.ACTIVE } := by
          unfold find_by_credentials setStatusById
          rw [List.find?_map, hcomp]
          have hpl : List.find? (fun x => decide (x.username = c.username) &&
              decide (x.password = c.password)) st.accounts = some row := hfind
          rw [hpl]
          simp
        refine ⟨fun _ => ⟨row, rfl, hip⟩,
          ⟨{ row with status := AccountStatus.ACTIVE }, hfind₁, rfl⟩, ?_⟩
        unfold login
        rw [hfind₁]
        simp

/-- Witness for C2: Alice registers and logs in twice. -/
theorem register_in_progress_login_activates_idempotent_witness :
    (true = true → ∃ row, find_by_credentials stAlice aliceLogin.username
        aliceLogin.password = some row ∧ row.status = AccountStatus.IN_PROGRESS) ∧
    (∃ row₁, find_by_credentials stAliceActive aliceLogin.username
        aliceLogin.password = some row₁ ∧ row₁.status = AccountStatus.ACTIVE) ∧
    login stAliceActive aliceLogin =
      (.Authenticated "Hello, Alice!", stAliceActive, false) :=
  register_in_progress_login_activates_idempotent.2 stAlice aliceLogin "Hello, Alice!"
    stAliceActive true (Reachable.register initStore aliceCreate Reachable.init) (by decide)

/-- Claim C8: a successful login only rewrites the status field of rows with
the matched account id to ACTIVE, keeping every other field, every other
account and the id counter unchanged; every login keeps all accounts with
their non-status fields, and register never removes an account. -/
theorem login_mutates_only_status_never_deletes :
    (∀ st c m st₁ w, login st c = (.Authenticated m, st₁, w) →
       ∃ row, find_by_credentials st c.username c.password = some row ∧
         st₁.nextId = st.nextId ∧
         st₁.accounts = st.accounts.map
           (fun x : Account => if row.status ≠ AccountStatus.ACTIVE ∧ x.id = row.id
                     then { x with status := AccountStatus.ACTIVE } else x)) ∧
    (∀ st c, (((login st c).2.1).accounts.length = st.accounts.length) ∧
       ∀ x ∈ st.accounts, ∃ b ∈ ((login st c).2.1).accounts,
         b.id = x.id ∧ b.name = x.name ∧ b.surname = x.surname ∧ b.age = x.age ∧
         b.username = x.username ∧ b.password = x.password) ∧
    (∀ st a, ∀ x ∈ st.accounts, x ∈ ((register_account st a).2).accounts) := by
  refine ⟨?_, ?_, ?_⟩
  · intro st c m st₁ w hlogin
    cases hfind : find_by_credentials st c.username c.password with
    | none => simp [login, hfind] at hlogin
    | some row =>
      refine ⟨row, rfl, ?_⟩
      by_cases hst : row.status = AccountStatus.ACTIVE
      · have hlogin' : login st c =
            (.Authenticated ("Hello, " ++ row.name ++ "!"), st, false) := by
          unfold login
          rw [hfind]
          simp [hst]
        rw [hlogin'] at hlogin
        obtain ⟨hm, hst₁, hw⟩ : ("Hello, " ++ row.name ++ "!") = m ∧ st = st₁ ∧ false = w := by
          simpa using hlogin
        subst hst₁
        refine ⟨rfl, ?_⟩
        have hmapid : st.accounts.map
            (fun x : Account => if row.status ≠ AccountStatus.ACTIVE ∧ x.id = row.id
                      then { x with status := AccountStatus.ACTIVE } else x) =
            st.accounts.map (fun x : Account => x) := by
          apply List.map_congr_left
          intro x hx
          simp [hst]
        rw [hmapid, List.map_id']
      · have hlogin' : login st c =
            (.Authenticated ("Hello, " ++ row.name ++ "!"),
             ⟨setStatusById st.accounts row.id AccountStatus.ACTIVE, st.nextId⟩, true) := by
          unfold login
          rw [hfind]
          simp [hst]
        rw [hlogin'] at hlogin
        obtain ⟨hm, hst₁, hw⟩ : ("Hello, " ++ row.name ++ "!") = m ∧
            (⟨setStatusById st.accounts row.id AccountStatus.ACTIVE, st.nextId⟩ : Store) = st₁ ∧
            true = w := by
          simpa using hlogin
        subst hst₁
        refine ⟨rfl, ?_⟩
        show setStatusById st.accounts row.id AccountStatus.ACTIVE = _
        unfold setStatusById
        apply List.map_congr_left
        intro x hx
        by_cases hid : x.id = row.id <;> simp [hid, hst]
  · intro st c
    cases hfind : find_by_credentials st c.username c.password with
    | none =>
      have hlogin' : login st c =
          (.NotFound ("User " ++ c.username ++ " Not Found"), st, false) := by
        unfold login
        rw [hfind]
      rw [hlogin']
      exact ⟨rfl, fun x hx => ⟨x, hx, rfl, rfl, rfl, rfl, rfl, rfl⟩⟩
    | some row =>
      by_cases hst : row.status = AccountStatus.ACTIVE
      · have hlogin' : login st c =
            (.Authenticated ("Hello, " ++ row.name ++ "!"), st, false) := by
          unfold login
          rw [hfind]
          simp [hst]
        rw [hlogin']
        exact ⟨rfl, fun x hx => ⟨x, hx, rfl, rfl, rfl, rfl, rfl, rfl⟩⟩
      · have hlogin' : login st c =
            (.Authenticated ("Hello, " ++ row.name ++ "!"),
             ⟨setStatusById st.accounts row.id AccountStatus.ACTIVE, st.nextId⟩, true) := by
          unfold login
          rw [hfind]
          simp [hst]
        rw [hlogin']
        constructor
        · show (setStatusById st.accounts row.id AccountStatus.ACTIVE).length = _
          unfold setStatusById
          exact List.length_map _ _
        · intro x hx
          refine ⟨(fun y => if y.id = row.id
              then { y with status := AccountStatus.ACTIVE } else y) x, ?_, ?_⟩
          · exact List.mem_map_of_mem _ hx
          · by_cases hid : x.id = row.id <;> simp [hid]
  · intro st a x hx
    unfold register_account
    by_cases hv : a.valid = true
    · by_cases hex : usernameExists st a.login.username = true
      · rw [if_pos hv, if_pos hex]
        exact hx
      · rw [if_pos hv, if_neg hex]
        exact List.mem_append_left _ hx
    · rw [if_neg hv]
      exact hx

/-- Witness for C8 at the first login of Alice. -/
theorem login_mutates_only_status_never_deletes_witness :
    ∃ row, find_by_credentials stAlice aliceLogin.username aliceLogin.password = some row ∧
      stAliceActive.nextId = stAlice.nextId ∧
      stAliceActive.accounts = stAlice.accounts.map
        (fun x : Account => if row.status ≠ AccountStatus.ACTIVE ∧ x.id = row.id
                  then { x with status := AccountStatus.ACTIVE } else x) :=
  login_mutates_only_status_never_deletes.1 stAlice aliceLogin "Hello, Alice!"
    stAliceActive true (by decide)

/-- Claim C9: in every reachable store the account ids are strictly
increasing in insertion order, hence unique, and every successful
registration appends an account whose id is strictly greater than the ids
of all previously created accounts. -/
theorem account_ids_unique_monotonic :
    (∀ st, Reachable st → st.accounts.Pairwise (fun a b => a.id < b.id)) ∧
    (∀ st a m st', Reachable st → register_account st a = (.Registered m, st') →
       ∃ acc, st'.accounts = st.accounts ++ [acc] ∧ ∀ b ∈ st.accounts, b.id < acc.id) := by
  constructor
  · intro st h
    exact (reachable_inv st h).2.1
  · intro st a m st' hreach hreg
    obtain ⟨h1, _, _, _⟩ := reachable_inv st hreach
    unfold register_account at hreg
    by_cases hv : a.valid = true
    · by_cases hex : usernameExists st a.login.username = true
      · rw [if_pos hv, if_pos hex] at hreg
        simp at hreg
      · rw [if_pos hv, if_neg hex] at hreg
        obtain ⟨hm, hst'⟩ : RegisterResult.Registered "Thank you for registering!" =
            RegisterResult.Registered m ∧
            (⟨st.accounts ++ [newRow st a], st.nextId + 1⟩ : Store) = st' := by
          simpa using hreg
        subst hst'
        refine ⟨newRow st a, rfl, ?_⟩
        intro b hb
        simpa [newRow] using h1 b hb
    · rw [if_neg hv] at hreg
      simp at hreg

/-- Witness for C9 at the first registration on the fresh store. -/
theorem account_ids_unique_monotonic_witness :
    ∃ acc, stAlice.accounts = initStore.accounts ++ [acc] ∧
      ∀ b ∈ initStore.accounts, b.id < acc.id :=
  account_ids_unique_monotonic.2 initStore aliceCreate "Thank you for registering!" stAlice
    Reachable.init (by decide)

/-- Claim C10: in every store state reachable through register and login
alone, the status of every account is IN_PROGRESS or ACTIVE; DISABLED and
DELETED are never assigned. -/
theorem reachable_statuses (st : Store) (h : Reachable st) :
    ∀ x ∈ st.accounts,
      x.status = AccountStatus.IN_PROGRESS ∨ x.status = AccountStatus.ACTIVE :=
  (reachable_inv st h).2.2.2

/-- Witness for C10 at the store where Alice registered and logged in. -/
theorem reachable_statuses_witness :
    ∃ x ∈ stAliceActive.accounts,
      x.status = AccountStatus.IN_PROGRESS ∨ x.status = AccountStatus.ACTIVE :=
  ⟨⟨1, "Alice", "Smith", 25, "Alice123", "BlaBla1234", AccountStatus.ACTIVE⟩,
   by decide,
   reachable_statuses stAliceActive
     (Reachable.login stAlice aliceLogin
       (Reachable.register initStore aliceCreate Reachable.init))
     ⟨1, "Alice", "Smith", 25, "Alice123", "BlaBla1234", AccountStatus.ACTIVE⟩
     (by decide)⟩

/-- Counterexample for C3 as stated: in a store where username Alice123
exists, a second Register using the same username but an invalid age
returns InvalidInput with HTTP 422, not Conflict, because pydantic
validation runs before the insert. -/
theorem register_duplicate_invalid_fields_not_conflict :
    usernameExists stAlice "Alice123" = true ∧
    bobSameUsername.login.username = "Alice123" ∧
    (register_account stAlice bobSameUsername).1 = RegisterResult.InvalidInput ∧
    ((register_account stAlice bobSameUsername).1).httpStatus = 422 := by decide

/-- Claim C3, amended: in every store state where the username already
exists, a second Register with that username and otherwise valid fields
returns Conflict, HTTP 400, with a body beginning with the text
Could not create account, and the store is unchanged and keeps username
uniqueness. -/
theorem register_duplicate_username_conflict
    (st : Store) (a : AccountCreate)
    (hv : a.valid = true)
    (hex : usernameExists st a.login.username = true) :
    register_account st a = (.Conflict duplicateDetail, st) ∧
    (RegisterResult.Conflict duplicateDetail).httpStatus = 400 ∧
    duplicateDetail = "Could not create account: " ++ "UNIQUE constraint failed: accounts.username" ∧
    (st.accounts.Pairwise (fun x y => x.username ≠ y.username) →
      ((register_account st a).2).accounts.Pairwise (fun x y => x.username ≠ y.username)) := by
  have hmain : register_account st a = (.Conflict duplicateDetail, st) := by
    unfold register_account
    rw [if_pos hv, if_pos hex]
  exact ⟨hmain, rfl, rfl, fun hp => by rw [hmain]; exact hp⟩

/-- Witness for C3 at a valid duplicate-username payload. -/
theorem register_duplicate_username_conflict_witness :
    register_account stAlice carolSameUsername = (.Conflict duplicateDetail, stAlice) ∧
    (RegisterResult.Conflict duplicateDetail).httpStatus = 400 ∧
    duplicateDetail = "Could not create account: " ++ "UNIQUE constraint failed: accounts.username" ∧
    (stAlice.accounts.Pairwise (fun x y => x.username ≠ y.username) →
      ((register_account stAlice carolSameUsername).2).accounts.Pairwise
        (fun x y => x.username ≠ y.username)) :=
  register_duplicate_username_conflict stAlice carolSameUsername (by decide) (by decide)

/-- Counterexample for C4 as stated: the name field of this payload contains
a non-alphabetic character, a trailing newline, yet Register accepts it
and creates a row, because Python re.match with a dollar anchor also
matches just before a trailing newline. -/
theorem register_newline_name_accepted :
    (∃ c ∈ newlineCreate.user.name.data, isAsciiLetter c = false) ∧
    (register_account initStore newlineCreate).1 =
      RegisterResult.Registered "Thank you for registering!" ∧
    ((register_account initStore newlineCreate).2).accounts.length = 1 := by decide

/-- Claim C4, amended: whenever any of the five field validators fails,
with the name, surname and username regexes read under Python semantics
where the dollar anchor permits one trailing newline, and with the
password digit rule reading digit as any Unicode decimal digit, Register
returns InvalidInput, HTTP 422, and the store is left unchanged: no row
is created. -/
theorem register_invalid_input_rejected
    (st : Store) (a : AccountCreate)
    (h : validate_name_letters_only a.user.name = false ∨
         validate_surname_letters_only a.user.surname = false ∨
         validate_age a.user.age = false ∨
         validate_username_alphanumeric a.login.username = false ∨
         validate_password_strength a.login.password = false) :
    (register_account st a).1 = RegisterResult.InvalidInput ∧
    ((register_account st a).1).httpStatus = 422 ∧
    (register_account st a).2 = st := by
  have hv : ¬ (a.valid = true) := by
    unfold AccountCreate.valid User.valid Login.valid
    rcases h with h | h | h | h | h <;> simp [h]
  have hmain : register_account st a = (.InvalidInput, st) := by
    unfold register_account
    rw [if_neg hv]
  exact ⟨by rw [hmain], by rw [hmain]; rfl, by rw [hmain]⟩

/-- Witness for C4 at a payload with age 17. -/
theorem register_invalid_input_rejected_witness :
    (register_account initStore bobSameUsername).1 = RegisterResult.InvalidInput ∧
    ((register_account initStore bobSameUsername).1).httpStatus = 422 ∧
    (register_account initStore bobSameUsername).2 = initStore :=
  register_invalid_input_rejected initStore bobSameUsername (by decide)

end Axa
